import Mathlib

/-!
Shallow embedding of the two-phase component build pipeline of hopper-mcbe:
the build-time sandbox host functions of `src/build.ts`
(`executeAndGetFileDefs`: `defineFile`, `defineJsonFile`, `implement`,
`defineComponent`, `createAddon`) and the run-time bootstrap that
`build.ts` embeds as the `runtimeScript` string (the readable source of
which is `runtime-script/optimized.ts`): `emptyDefine`, `script`,
`implement`, `createAddon`, guarded by `functionsAvailable` and
`createAddonCalled`.  JavaScript mutable state is threaded explicitly;
functions that can `throw` return `Except String`; a registration
function that returns `false` in JavaScript returns `none` here and a
returned file name `s` is `some s`.
-/

namespace Hopper

/-- FileDefinition from the source: `{ path: string, content: string }`. -/
structure FileDefinition where
  path : String
  content : String
deriving DecidableEq, Repr

/-- Once option object `{ key: string }` of `DefineFileOptions.once`. -/
structure OnceOptions where
  key : String
deriving DecidableEq, Repr

/-- DefineFileOptions from the source: `{ name?, rootDir?, ext?, once? }`.
Absent optional fields are `none`. -/
structure DefineFileOptions where
  name : Option String := none
  rootDir : Option String := none
  ext : Option String := none
  once : Option OnceOptions := none
deriving DecidableEq, Repr

/-- DefineFileRawOptions: as `DefineFileOptions` but `rootDir` and `ext`
are required. -/
structure DefineFileRawOptions where
  name : Option String := none
  rootDir : String
  ext : String
  once : Option OnceOptions := none
deriving DecidableEq, Repr

/-- Options accepted by the `script` registration function: `{ once? }`. -/
structure DefineScriptOptions where
  once : Option OnceOptions := none
deriving DecidableEq, Repr

/-- Mirrors `const onceKey = o.once?.key; if (onceKey) ...`: the gate is
taken only when `once` is present and its key is a truthy (non-empty)
string. -/
def onceKeyOf (o : Option OnceOptions) : Option String :=
  match o with
  | none => none
  | some k => if k.key = "" then none else some k.key

/-- Node `path.join(rootDir, file)` for the root directories occurring in
the source (plain relative directories, no trailing separators), where it
just inserts one separator. -/
def pathJoin (a b : String) : String := a ++ "/" ++ b

/-- Shared mutable build-time sandbox registry state of
`executeAndGetFileDefs`: `allFilesCount` and the once-key set
`fileOnceKeys` (modelled as the list of inserted keys). -/
structure BuildState where
  allFilesCount : Nat
  fileOnceKeys : List String
deriving DecidableEq, Repr

/-- Component value of the build-time sandbox:
`{ _fileDefinitions, _scriptCallbacks }`.  The build-time sandbox ignores
`script` registrations, so `_scriptCallbacks` is always `[]` there; the
callbacks are identified by opaque ids. -/
structure Component where
  fileDefinitions : List FileDefinition
  scriptCallbacks : List Nat
deriving DecidableEq, Repr

/-- Build-time `defineFile(content, o)` from `executeAndGetFileDefs`:
checks the once-key gate, resolves the file name
(`o.name ?? allFilesCount.toString()`), pushes
`{ path: path.join(o.rootDir, fileName + "." + o.ext), content }` onto the
component-local array `fds`, increments the shared counter and returns the
resolved name; on a once-key hit it returns `false` (`none`) at once,
leaving every piece of state untouched. -/
def defineFile (content : String) (o : DefineFileRawOptions)
    (st : BuildState) (fds : List FileDefinition) :
    Option String × List FileDefinition × BuildState :=
  match onceKeyOf o.once with
  | some k =>
    if k ∈ st.fileOnceKeys then (none, fds, st)
    else
      let fileName := o.name.getD (Nat.repr st.allFilesCount)
      (some fileName,
        fds ++ [⟨pathJoin o.rootDir (fileName ++ "." ++ o.ext), content⟩],
        ⟨st.allFilesCount + 1, k :: st.fileOnceKeys⟩)
  | none =>
    let fileName := o.name.getD (Nat.repr st.allFilesCount)
    (some fileName,
      fds ++ [⟨pathJoin o.rootDir (fileName ++ "." ++ o.ext), content⟩],
      ⟨st.allFilesCount + 1, st.fileOnceKeys⟩)

/-- JSON-backed artifact kinds of the `define` object, each with the
default root directory that `defineJsonFile` receives at its use site in
the source (`rawText`, which takes raw options, is kept separate). -/
inductive FileKind where
  | serverAnimationController
  | serverAnimation
  | biome
  | block
  | dialogue
  | entity
  | featureRules
  | feature
  | item
  | lootTable
  | recipe
  | spawnRules
  | tradeTable
  | clientAnimationController
  | clientAnimation
  | attachable
  | clientEntity
  | particle
  | renderController
deriving DecidableEq, Repr

/-- Default root directory bound to each kind at the `defineJsonFile` call
sites of the source. -/
def FileKind.defaultRootDir : FileKind → String
  | .serverAnimationController => "BP/animation_controllers"
  | .serverAnimation => "BP/animations"
  | .biome => "BP/biomes"
  | .block => "BP/blocks"
  | .dialogue => "BP/dialogue"
  | .entity => "BP/entities"
  | .featureRules => "BP/feature_rules"
  | .feature => "BP/features"
  | .item => "BP/items"
  | .lootTable => "BP/loot_tables"
  | .recipe => "BP/recipes"
  | .spawnRules => "BP/spawn_rules"
  | .tradeTable => "BP/trading"
  | .clientAnimationController => "RP/animation_controllers"
  | .clientAnimation => "RP/animations"
  | .attachable => "RP/attachables"
  | .clientEntity => "RP/entity"
  | .particle => "RP/particles"
  | .renderController => "RP/render_controllers"

/-- Build-time `defineJsonFile(defaultRootDir, content, o)`: forwards to
`defineFile` with `JSON.stringify(content)` (here `content` already stands
for that serialized text, which the claims never inspect),
`o.rootDir ?? defaultRootDir` and `o.ext ?? "json"`.  The source builds
the raw-options object from exactly these three fields — the `once`
option of the call is not forwarded, so a JSON-kind registration reaches
`defineFile` with no once-key. -/
def defineJsonFile (defaultRootDir : String) (content : String)
    (o : DefineFileOptions) (st : BuildState) (fds : List FileDefinition) :
    Option String × List FileDefinition × BuildState :=
  defineFile content ⟨o.name, o.rootDir.getD defaultRootDir, o.ext.getD "json", none⟩ st fds

/-- Calls a component-factory callback can make on its registration handle
`{ define, implement }` in the build-time sandbox.  `script` carries the
arguments of the call site even though the build-time implementation
(`script: () => {}`) ignores them. -/
inductive BuildAction where
  | defineKind (kind : FileKind) (content : String) (o : DefineFileOptions)
  | rawText (content : String) (o : DefineFileRawOptions)
  | script (id : Nat) (o : DefineScriptOptions)
  | implement (c : Component)
deriving DecidableEq

/-- Recognizes the `implement` handle call. -/
def BuildAction.isImplement : BuildAction → Bool
  | .implement _ => true
  | _ => false

/-- Effect of one handle call on the shared registry state and the
component-local `fileDefinitions` array, exactly as in the source:
`defineKind` goes through `defineJsonFile`, `rawText` through `defineFile`,
`script` is the ignored no-op `() => {}` and `implement` prepends the
implemented component file definitions
(`fileDefinitions = [...component._fileDefinitions, ...fileDefinitions]`). -/
def runAction (a : BuildAction) (s : BuildState × List FileDefinition) :
    BuildState × List FileDefinition :=
  match a with
  | .defineKind k content o =>
    let r := defineJsonFile k.defaultRootDir content o s.1 s.2
    (r.2.2, r.2.1)
  | .rawText content o =>
    let r := defineFile content o s.1 s.2
    (r.2.2, r.2.1)
  | .script _ _ => s
  | .implement c => (s.1, c.fileDefinitions ++ s.2)

/-- Runs a whole callback body, call by call. -/
def runActions (acts : List BuildAction) (s : BuildState × List FileDefinition) :
    BuildState × List FileDefinition :=
  acts.foldl (fun s a => runAction a s) s

/-- Build-time factory produced by `defineComponent(callback)`: starts from
the fresh local array `fileDefinitions = []`, runs the callback body and
returns `{ _fileDefinitions: fileDefinitions, _scriptCallbacks: [] }`
together with the new shared registry state.  The source closure contains
no availability guard and nothing in it can throw. -/
def mkFactory (body : List BuildAction) (st : BuildState) :
    BuildState × Component :=
  let r := runActions body (st, [])
  (r.1, ⟨r.2, []⟩)

/-- Whole mutable global state of one `executeAndGetFileDefs` call:
`mainComponent`, `allFilesCount` and `fileOnceKeys`. -/
structure BuildGlobal where
  mainComponent : Option Component
  st : BuildState
deriving DecidableEq, Repr

/-- Initial sandbox state of `executeAndGetFileDefs`:
`let mainComponent; let allFilesCount = 0; const fileOnceKeys = new Set()`. -/
def initialBuildGlobal : BuildGlobal := ⟨none, ⟨0, []⟩⟩

/-- Build-time `createAddon(mainComponent_)`: throws
`createAddon has already been called` when a main component is already
set, else records the argument as the main component. -/
def createAddon (g : BuildGlobal) (c : Component) : Except String BuildGlobal :=
  if g.mainComponent.isSome then
    .error "createAddon has already been called"
  else
    .ok ⟨some c, g.st⟩

/-- Build-time `defineComponent(callback)`: throws when the main component
is already set (`Cannot define a component after createAddon has been
called`), else returns the factory closure.  The guard runs when
`defineComponent` itself is called, not when the returned factory is
invoked. -/
def defineComponent (g : BuildGlobal) (body : List BuildAction) :
    Except String (BuildState → BuildState × Component) :=
  if g.mainComponent.isSome then
    .error "Cannot define a component after createAddon has been called"
  else
    .ok (mkFactory body)

/-- Invocation of an already-obtained factory against the current global
state.  The closure reads and writes only `allFilesCount` and
`fileOnceKeys`; it never consults `mainComponent` and contains no throw,
so its `Except` is error-free by construction. -/
def invokeFactory (body : List BuildAction) (g : BuildGlobal) :
    Except String (BuildGlobal × Component) :=
  .ok (⟨g.mainComponent, (mkFactory body g.st).1⟩, (mkFactory body g.st).2)

/-- Tail of `executeAndGetFileDefs` after the sandbox evaluation: throws
`createAddon must be called` when no main component was established,
else returns `mainComponent._fileDefinitions` (the script callbacks are
dropped). -/
def finishBuild (g : BuildGlobal) : Except String (List FileDefinition) :=
  match g.mainComponent with
  | none => .error "createAddon must be called"
  | some c => .ok c.fileDefinitions

/-- Build-time handle call made after the owning factory has returned.
The source installs no guard on the build-time handle, so the call behaves
exactly as during the callback; the pushed entry lands in the very array
that the returned component captured (`_fileDefinitions`), so the
component seen through that reference is the updated one returned here. -/
def postReturnDefineKind (k : FileKind) (content : String)
    (o : DefineFileOptions) (st : BuildState) (c : Component) :
    Except String (Option String × BuildState × Component) :=
  let r := defineJsonFile k.defaultRootDir content o st c.fileDefinitions
  .ok (r.1, r.2.2, ⟨r.2.1, c.scriptCallbacks⟩)

/-!
Run-time bootstrap, as embedded by `build.ts` in the `runtimeScript`
string (readable source: the guarded `runtime-script/optimized.ts`).  The
callbacks and the `MODULES` object are opaque, so both are type
parameters.
-/

/-- Mutable state of the emitted bootstrap closure:
`let createAddonCalled = false; let allFilesCount = 0;
const fileOnceKeys = new Set()`. -/
structure RtState where
  createAddonCalled : Bool
  allFilesCount : Nat
  fileOnceKeys : List String
deriving DecidableEq, Repr

/-- Initial run-time bootstrap state of one engine session. -/
def initialRtState : RtState := ⟨false, 0, []⟩

/-- Run-time component: `{ _fileDefinitions: [], _scriptCallbacks }`.  The
emitted factory always writes the literal `[]` into `_fileDefinitions`. -/
structure RtComponent (CB : Type) where
  fileDefinitions : List FileDefinition
  scriptCallbacks : List CB
deriving DecidableEq, Repr

/-- Body of the run-time `emptyDefine` once the `functionsAvailable` guard
has passed: once-key gate, then `o.name ?? allFilesCount.toString()`,
increment, return the name.  The content argument is ignored and no file
definition is ever produced. -/
def rtEmptyDefineCore (o : DefineFileOptions) (st : RtState) :
    Option String × RtState :=
  match onceKeyOf o.once with
  | some k =>
    if k ∈ st.fileOnceKeys then (none, st)
    else
      (some (o.name.getD (Nat.repr st.allFilesCount)),
        ⟨st.createAddonCalled, st.allFilesCount + 1, k :: st.fileOnceKeys⟩)
  | none =>
    (some (o.name.getD (Nat.repr st.allFilesCount)),
      ⟨st.createAddonCalled, st.allFilesCount + 1, st.fileOnceKeys⟩)

/-- Run-time `emptyDefine`, the single function every file-artifact key of
the emitted `define` object (including `rawText`) is bound to: throws
`Cannot use define as it is no longer available` once
`functionsAvailable` is false, else runs the core body. -/
def rtEmptyDefine (functionsAvailable : Bool) (o : DefineFileOptions)
    (st : RtState) : Except String (Option String × RtState) :=
  if functionsAvailable then .ok (rtEmptyDefineCore o st)
  else .error "Cannot use define as it is no longer available"

/-- Body of the run-time `script` registration once the guard has passed:
once-key gate against the same `fileOnceKeys` set, then push the callback. -/
def rtScriptCore {CB : Type} (cb : CB) (o : DefineScriptOptions)
    (st : RtState) (cbs : List CB) : RtState × List CB :=
  match onceKeyOf o.once with
  | some k =>
    if k ∈ st.fileOnceKeys then (st, cbs)
    else
      (⟨st.createAddonCalled, st.allFilesCount, k :: st.fileOnceKeys⟩,
        cbs ++ [cb])
  | none => (st, cbs ++ [cb])

/-- Run-time `script` registration function with its availability guard. -/
def rtScript {CB : Type} (functionsAvailable : Bool) (cb : CB)
    (o : DefineScriptOptions) (st : RtState) (cbs : List CB) :
    Except String (RtState × List CB) :=
  if functionsAvailable then .ok (rtScriptCore cb o st cbs)
  else .error "Cannot use define as it is no longer available"

/-- Run-time `implement(component)` with its availability guard:
`scriptCallbacks = [...component._scriptCallbacks, ...scriptCallbacks]`. -/
def rtImplement {CB : Type} (functionsAvailable : Bool) (c : RtComponent CB)
    (cbs : List CB) : Except String (List CB) :=
  if functionsAvailable then .ok (c.scriptCallbacks ++ cbs)
  else .error "Cannot use implement as it is no longer available"

/-- Calls a run-time component-factory callback can make on its handle. -/
inductive RtAction (CB : Type) where
  | defineKind (kind : FileKind) (content : String) (o : DefineFileOptions)
  | rawText (content : String) (o : DefineFileOptions)
  | script (cb : CB) (o : DefineScriptOptions)
  | implement (c : RtComponent CB)
deriving DecidableEq

/-- Recognizes the run-time `implement` handle call. -/
def RtAction.isImplement {CB : Type} : RtAction CB → Bool
  | .implement _ => true
  | _ => false

/-- Effect of one run-time handle call while `functionsAvailable` is still
true (during the factory callback), so each guard passes and only the core
bodies act. -/
def runRtAction {CB : Type} (a : RtAction CB) (s : RtState × List CB) :
    RtState × List CB :=
  match a with
  | .defineKind _ _ o => ((rtEmptyDefineCore o s.1).2, s.2)
  | .rawText _ o => ((rtEmptyDefineCore o s.1).2, s.2)
  | .script cb o => rtScriptCore cb o s.1 s.2
  | .implement c => (s.1, c.scriptCallbacks ++ s.2)

/-- Runs a run-time callback body, call by call. -/
def runRtActions {CB : Type} (acts : List (RtAction CB))
    (s : RtState × List CB) : RtState × List CB :=
  acts.foldl (fun s a => runRtAction a s) s

/-- Run-time factory produced by the emitted `defineComponent`: fresh
`scriptCallbacks = []`, run the callback with `functionsAvailable = true`,
then set `functionsAvailable = false` and return
`{ _fileDefinitions: [], _scriptCallbacks: scriptCallbacks }`. -/
def mkRtFactory {CB : Type} (body : List (RtAction CB)) (st : RtState) :
    RtState × RtComponent CB :=
  let r := runRtActions body (st, [])
  (r.1, ⟨[], r.2⟩)

/-- Run-time `createAddon(mainComponent)`: throws
`createAddon has already been called` on a second call, else invokes
every collected callback in order, each applied to the one `MODULES`
object, and records that it ran.  The returned list is the exact sequence
of performed invocations as callback/argument pairs. -/
def createAddonRt {CB M : Type} (modules : M) (st : RtState)
    (c : RtComponent CB) : Except String (List (CB × M) × RtState) :=
  if st.createAddonCalled then
    .error "createAddon has already been called"
  else
    .ok (c.scriptCallbacks.map (fun cb => (cb, modules)),
      ⟨true, st.allFilesCount, st.fileOnceKeys⟩)

/-- Run-time `defineComponent(callback)` guard: throws
`Cannot define a component after createAddon has been called` once
`createAddonCalled` is set, else hands out the factory closure (the guard
runs when `defineComponent` is called, not when the factory is invoked). -/
def defineComponentRt {CB : Type} (st : RtState) (body : List (RtAction CB)) :
    Except String (RtState → RtState × RtComponent CB) :=
  if st.createAddonCalled then
    .error "Cannot define a component after createAddon has been called"
  else
    .ok (mkRtFactory body)

/-!
Module-alias banner generator of `build.ts` (`bpManifest.dependencies`
loop and the `banner` template string).
-/

/-- Manifest dependency entry: either a module dependency
`{ module_name, version, "hopper:alias" }` (the alias field may be absent
in the parsed JSON even though the declared type requires it) or a
companion-pack reference `{ uuid, version }`. -/
inductive ManifestDependency where
  | moduleDep (module_name : String) (version : String) (hopperAlias : Option String)
  | uuidDep (uuid : String) (version : String)
deriving DecidableEq, Repr

/-- Alias resolution of the source,
`dependency["hopper:alias"] || dependency.module_name`: the module name is
used when the alias field is absent or holds a falsy (empty) string. -/
def resolveAlias (hopperAlias : Option String) (module_name : String) : String :=
  match hopperAlias with
  | some a => if a = "" then module_name else a
  | none => module_name

/-- Alias key as the claim words it: the declared alias, or the raw module
name only when no alias is declared at all. -/
def claimedAliasKey (hopperAlias : Option String) (module_name : String) : String :=
  match hopperAlias with
  | some a => a
  | none => module_name

/-- Synthetic local import name for the dependency at index `i` of the
manifest list. -/
def importNameFor (i : Nat) : String := "__scriptModule" ++ Nat.repr i ++ "__"

/-- Import statement a single enumerated dependency contributes to the
`imports` accumulator (`""` for companion-pack entries). -/
def importFragment : Nat × ManifestDependency → String
  | (i, .moduleDep mn _ _) =>
    "import*as " ++ importNameFor i ++ " from\"" ++ mn ++ "\";"
  | (_, .uuidDep _ _) => ""

/-- Object-literal entry a single enumerated dependency contributes to the
`modulesKeyVal` accumulator (`""` for companion-pack entries). -/
def aliasFragment : Nat × ManifestDependency → String
  | (i, .moduleDep mn _ al) =>
    "\"" ++ resolveAlias al mn ++ "\":" ++ importNameFor i ++ ","
  | (_, .uuidDep _ _) => ""

/-- Accumulating loop of the source over the enumerated dependency list:
`imports += ...; modulesKeyVal += ...` for module entries, `continue` for
companion-pack entries. -/
def bannerFold (l : List (Nat × ManifestDependency)) (acc : String × String) :
    String × String :=
  l.foldl (fun acc e =>
    match e.2 with
    | .uuidDep _ _ => acc
    | .moduleDep _ _ _ => (acc.1 ++ importFragment e, acc.2 ++ aliasFragment e)) acc

/-- Accumulated `(imports, modulesKeyVal)` pair for a dependency list. -/
def bannerParts (deps : List ManifestDependency) : String × String :=
  bannerFold deps.enum ("", "")

/-- Emitted banner, from the template
`${imports}(()=>{const MODULES={${modulesKeyVal}};${runtimeScript}})();`,
with the embedded bootstrap text abstracted as `runtimeScript`. -/
def mkBanner (deps : List ManifestDependency) (runtimeScript : String) : String :=
  (bannerParts deps).1 ++ "(()=>\x7bconst MODULES=\x7b" ++ (bannerParts deps).2
    ++ "\x7d;" ++ runtimeScript ++ "\x7d)();"

/-!
Registration trace of a build-time callback body, used to speak about the
names handed out by `defineFile`.  `defineFile` decides its result and its
state update independently of the component-local array, so the trace
re-runs each call against the empty array and records only the explicit
name option of the call and the returned result.
-/

/-- One file-registration call record: the `o.name` the call supplied and
the name `defineFile` returned (`none` for a once-key skip). -/
structure RegEvent where
  explicitName : Option String
  result : Option String
deriving DecidableEq, Repr

/-- Trace of the file-registration calls a callback body makes, in call
order, with the registry state threaded exactly as `runAction` threads it
(`script` and `implement` touch neither the counter nor the key set). -/
def regTrace : List BuildAction → BuildState → List RegEvent
  | [], _ => []
  | .defineKind k content o :: rest, st =>
    let r := defineJsonFile k.defaultRootDir content o st []
    ⟨o.name, r.1⟩ :: regTrace rest r.2.2
  | .rawText content o :: rest, st =>
    let r := defineFile content o st []
    ⟨o.name, r.1⟩ :: regTrace rest r.2.2
  | .script _ _ :: rest, st => regTrace rest st
  | .implement _ :: rest, st => regTrace rest st

/-- Auto-generated names of a trace: results of the successful
registrations that supplied no explicit name. -/
def autoNames (tr : List RegEvent) : List String :=
  tr.filterMap (fun e =>
    match e.explicitName with
    | none => e.result
    | some _ => none)

/-!
Helper lemmas shared by the claim theorems.
-/

/-- Once-key hit: `defineFile` returns `false` and leaves the array and
the registry untouched. -/
theorem defineFile_skip (content : String) (o : DefineFileRawOptions)
    (st : BuildState) (fds : List FileDefinition) (k : String)
    (h : onceKeyOf o.once = some k) (hk : k ∈ st.fileOnceKeys) :
    defineFile content o st fds = (none, fds, st) := by
  unfold defineFile
  rw [h]
  simp [hk]

/-- Fresh once-key: `defineFile` records the key, appends the entry and
returns the resolved name. -/
theorem defineFile_fresh (content : String) (o : DefineFileRawOptions)
    (st : BuildState) (fds : List FileDefinition) (k : String)
    (h : onceKeyOf o.once = some k) (hk : k ∉ st.fileOnceKeys) :
    defineFile content o st fds =
      (some (o.name.getD (Nat.repr st.allFilesCount)),
        fds ++ [⟨pathJoin o.rootDir
          (o.name.getD (Nat.repr st.allFilesCount) ++ "." ++ o.ext), content⟩],
        ⟨st.allFilesCount + 1, k :: st.fileOnceKeys⟩) := by
  unfold defineFile
  rw [h]
  simp [hk]

/-- No once-key: `defineFile` appends the entry, increments the counter
and leaves the key set alone. -/
theorem defineFile_nokey (content : String) (o : DefineFileRawOptions)
    (st : BuildState) (fds : List FileDefinition)
    (h : onceKeyOf o.once = none) :
    defineFile content o st fds =
      (some (o.name.getD (Nat.repr st.allFilesCount)),
        fds ++ [⟨pathJoin o.rootDir
          (o.name.getD (Nat.repr st.allFilesCount) ++ "." ++ o.ext), content⟩],
        ⟨st.allFilesCount + 1, st.fileOnceKeys⟩) := by
  unfold defineFile
  rw [h]

/-- Build-time JSON-kind registration: since the call site drops the
`once` field, the call always succeeds with the resolved name and the
incremented counter, and it never consults or extends the key set. -/
theorem defineJsonFile_nokey (d content : String) (o : DefineFileOptions)
    (st : BuildState) (fds : List FileDefinition) :
    defineJsonFile d content o st fds =
      (some (o.name.getD (Nat.repr st.allFilesCount)),
        fds ++ [⟨pathJoin (o.rootDir.getD d)
          (o.name.getD (Nat.repr st.allFilesCount) ++ "." ++ (o.ext.getD "json")),
          content⟩],
        ⟨st.allFilesCount + 1, st.fileOnceKeys⟩) :=
  defineFile_nokey content _ st fds rfl

/-- Result and state of `defineFile` do not depend on the component-local
array, which only receives the appended entry. -/
theorem defineFile_factor (content : String) (o : DefineFileRawOptions)
    (st : BuildState) (fds : List FileDefinition) :
    defineFile content o st fds =
      ((defineFile content o st []).1,
        fds ++ (defineFile content o st []).2.1,
        (defineFile content o st []).2.2) := by
  unfold defineFile
  match h : onceKeyOf o.once with
  | some k =>
    by_cases hk : k ∈ st.fileOnceKeys <;> simp [hk]
  | none => simp

/-- Folding a concatenation of callback bodies. -/
theorem runActions_append (l1 l2 : List BuildAction)
    (s : BuildState × List FileDefinition) :
    runActions (l1 ++ l2) s = runActions l2 (runActions l1 s) := by
  simp [runActions, List.foldl_append]

/-- A block of consecutive `implement` calls leaves the registry state
alone and piles the implemented file definitions in front, most recent
first. -/
theorem runActions_implement_front (comps : List Component)
    (st : BuildState) (fds : List FileDefinition) :
    runActions (comps.map BuildAction.implement) (st, fds) =
      (st, (comps.reverse.map Component.fileDefinitions).flatten ++ fds) := by
  induction comps generalizing fds with
  | nil => simp [runActions]
  | cons c rest ih =>
    rw [List.map_cons]
    have hstep :
        runActions (BuildAction.implement c :: List.map BuildAction.implement rest) (st, fds) =
          runActions (List.map BuildAction.implement rest) (st, c.fileDefinitions ++ fds) := rfl
    rw [hstep, ih]
    simp [List.flatten_append, List.append_assoc]

/-- Handle calls other than `implement` act on the component-local array
only by appending. -/
theorem runAction_factor (a : BuildAction) (h : a.isImplement = false)
    (st : BuildState) (fds : List FileDefinition) :
    runAction a (st, fds) =
      ((runAction a (st, [])).1, fds ++ (runAction a (st, [])).2) := by
  match a with
  | .defineKind k content o =>
    simp only [runAction, defineJsonFile]
    rw [defineFile_factor content _ st fds]
  | .rawText content o =>
    simp only [runAction]
    rw [defineFile_factor content o st fds]
  | .script _ _ => simp [runAction]
  | .implement c => simp [BuildAction.isImplement] at h

/-- Over an `implement`-free body the component-local array is a passive
accumulator: running from any prefix appends the same production. -/
theorem runActions_factor (l : List BuildAction) :
    (∀ a ∈ l, a.isImplement = false) →
    ∀ (st : BuildState) (fds : List FileDefinition),
    runActions l (st, fds) =
      ((runActions l (st, [])).1, fds ++ (runActions l (st, [])).2) := by
  induction l with
  | nil => intro _ st fds; simp [runActions]
  | cons a rest ih =>
    intro h st fds
    have ha : a.isImplement = false := h a (List.mem_cons_self a rest)
    have hr : ∀ b ∈ rest, b.isImplement = false :=
      fun b hb => h b (List.mem_cons_of_mem a hb)
    simp only [runActions, List.foldl_cons]
    rw [runAction_factor a ha st fds]
    rcases hp : runAction a (st, []) with ⟨st1, d⟩
    dsimp only
    have h1 := ih hr st1 (fds ++ d)
    have h2 := ih hr st1 d
    simp only [runActions] at h1 h2
    rw [h1, h2]
    simp

/-- Folding a concatenation of run-time callback bodies. -/
theorem runRtActions_append {CB : Type} (l1 l2 : List (RtAction CB))
    (s : RtState × List CB) :
    runRtActions (l1 ++ l2) s = runRtActions l2 (runRtActions l1 s) := by
  simp [runRtActions, List.foldl_append]

/-- Run-time block of consecutive `implement` calls: registry state
untouched, implemented callbacks piled in front, most recent first. -/
theorem runRtActions_implement_front {CB : Type} (comps : List (RtComponent CB))
    (st : RtState) (cbs : List CB) :
    runRtActions (comps.map RtAction.implement) (st, cbs) =
      (st, (comps.reverse.map RtComponent.scriptCallbacks).flatten ++ cbs) := by
  induction comps generalizing cbs with
  | nil => simp [runRtActions]
  | cons c rest ih =>
    rw [List.map_cons]
    have hstep :
        runRtActions (RtAction.implement c :: List.map RtAction.implement rest) (st, cbs) =
          runRtActions (List.map RtAction.implement rest) (st, c.scriptCallbacks ++ cbs) := rfl
    rw [hstep, ih]
    simp [List.flatten_append, List.append_assoc]

/-- Run-time handle calls other than `implement` act on the callback list
only by appending. -/
theorem runRtAction_factor {CB : Type} (a : RtAction CB)
    (h : a.isImplement = false) (st : RtState) (cbs : List CB) :
    runRtAction a (st, cbs) =
      ((runRtAction a (st, [])).1, cbs ++ (runRtAction a (st, [])).2) := by
  match a with
  | .defineKind k content o => simp [runRtAction]
  | .rawText content o => simp [runRtAction]
  | .script cb o =>
    simp only [runRtAction, rtScriptCore]
    match ho : onceKeyOf o.once with
    | some k => by_cases hk : k ∈ st.fileOnceKeys <;> simp [hk]
    | none => simp
  | .implement c => simp [RtAction.isImplement] at h

/-- Run-time analogue of `runActions_factor` for `implement`-free bodies. -/
theorem runRtActions_factor {CB : Type} (l : List (RtAction CB)) :
    (∀ a ∈ l, a.isImplement = false) →
    ∀ (st : RtState) (cbs : List CB),
    runRtActions l (st, cbs) =
      ((runRtActions l (st, [])).1, cbs ++ (runRtActions l (st, [])).2) := by
  induction l with
  | nil => intro _ st cbs; simp [runRtActions]
  | cons a rest ih =>
    intro h st cbs
    have ha : a.isImplement = false := h a (List.mem_cons_self a rest)
    have hr : ∀ b ∈ rest, b.isImplement = false :=
      fun b hb => h b (List.mem_cons_of_mem a hb)
    simp only [runRtActions, List.foldl_cons]
    rw [runRtAction_factor a ha st cbs]
    rcases hp : runRtAction a (st, []) with ⟨st1, d⟩
    dsimp only
    have h1 := ih hr st1 (cbs ++ d)
    have h2 := ih hr st1 d
    simp only [runRtActions] at h1 h2
    rw [h1, h2]
    simp

/-- Seen once-key: the run-time file registration returns false with no
effect. -/
theorem rtEmptyDefineCore_skip (o : DefineFileOptions) (st : RtState)
    (k : String) (h : onceKeyOf o.once = some k)
    (hk : k ∈ st.fileOnceKeys) : rtEmptyDefineCore o st = (none, st) := by
  unfold rtEmptyDefineCore
  rw [h]
  simp [hk]

/-- Fresh once-key: the run-time file registration consumes the key,
increments the counter and returns the resolved name. -/
theorem rtEmptyDefineCore_fresh (o : DefineFileOptions) (st : RtState)
    (k : String) (h : onceKeyOf o.once = some k)
    (hk : k ∉ st.fileOnceKeys) :
    rtEmptyDefineCore o st =
      (some (o.name.getD (Nat.repr st.allFilesCount)),
        ⟨st.createAddonCalled, st.allFilesCount + 1, k :: st.fileOnceKeys⟩) := by
  unfold rtEmptyDefineCore
  rw [h]
  simp [hk]

/-- Keyless run-time file registration: increments the counter and returns
the resolved name, leaving the key set alone. -/
theorem rtEmptyDefineCore_nokey (o : DefineFileOptions) (st : RtState)
    (h : onceKeyOf o.once = none) :
    rtEmptyDefineCore o st =
      (some (o.name.getD (Nat.repr st.allFilesCount)),
        ⟨st.createAddonCalled, st.allFilesCount + 1, st.fileOnceKeys⟩) := by
  unfold rtEmptyDefineCore
  rw [h]

/-!
Claim C1.
-/

/-- C1, counterexample: a factory callback that implements B1 and then B2
(in that call order) yields the entries of B2 first, not those of B1 as the claim
states: `implement` prepends, so the most recently implemented component
is closest to the front. -/
theorem implement_call_order_counterexample :
    (runActions
      [BuildAction.implement ⟨[⟨"BP/entities/a.json", "ca"⟩], []⟩,
        BuildAction.implement ⟨[⟨"BP/entities/b.json", "cb"⟩], []⟩]
      (⟨0, []⟩, [])).2 =
      [⟨"BP/entities/b.json", "cb"⟩, ⟨"BP/entities/a.json", "ca"⟩] ∧
    (runActions
      [BuildAction.implement ⟨[⟨"BP/entities/a.json", "ca"⟩], []⟩,
        BuildAction.implement ⟨[⟨"BP/entities/b.json", "cb"⟩], []⟩]
      (⟨0, []⟩, [])).2 ≠
      [⟨"BP/entities/a.json", "ca"⟩, ⟨"BP/entities/b.json", "cb"⟩] := by
  exact ⟨rfl, by decide⟩

/-- C1 (amended): for a factory callback that implements B1, ..., Bn in
that call order and then performs its own `implement`-free registrations,
the composed sequence is the entries of Bn first, then those of B(n-1),
..., down to B1, then the own registrations of the component, with the
entries of each Bi
kept in their internal relative order; the registry state is exactly the
one produced by the own registrations.  This holds in the build-time
sandbox for file artifacts and in the run-time bootstrap for deferred
callbacks. -/
theorem implement_composition_order :
    (∀ (comps : List Component) (own : List BuildAction),
      (∀ a ∈ own, a.isImplement = false) → ∀ st : BuildState,
      runActions (comps.map BuildAction.implement ++ own) (st, []) =
        ((runActions own (st, [])).1,
          (comps.reverse.map Component.fileDefinitions).flatten ++
            (runActions own (st, [])).2)) ∧
    (∀ (CB : Type) (comps : List (RtComponent CB)) (own : List (RtAction CB)),
      (∀ a ∈ own, a.isImplement = false) → ∀ st : RtState,
      runRtActions (comps.map RtAction.implement ++ own) (st, []) =
        ((runRtActions own (st, [])).1,
          (comps.reverse.map RtComponent.scriptCallbacks).flatten ++
            (runRtActions own (st, [])).2)) := by
  constructor
  · intro comps own h st
    rw [runActions_append, runActions_implement_front comps st [], List.append_nil]
    exact runActions_factor own h st _
  · intro CB comps own h st
    rw [runRtActions_append, runRtActions_implement_front comps st [], List.append_nil]
    exact runRtActions_factor own h st _

/-- C1 witness: concrete instance of the amended order with two
implemented components and one own registration, in both environments. -/
theorem implement_composition_order_witness :
    (runActions
      (([⟨[⟨"BP/entities/a.json", "ca"⟩], []⟩,
        ⟨[⟨"BP/entities/b.json", "cb"⟩], []⟩] : List Component).map BuildAction.implement ++
        [BuildAction.defineKind FileKind.block "x" {}]) (⟨0, []⟩, []) =
      ((runActions [BuildAction.defineKind FileKind.block "x" {}] (⟨0, []⟩, [])).1,
        (([⟨[⟨"BP/entities/a.json", "ca"⟩], []⟩,
          ⟨[⟨"BP/entities/b.json", "cb"⟩], []⟩] : List Component).reverse.map
            Component.fileDefinitions).flatten ++
          (runActions [BuildAction.defineKind FileKind.block "x" {}] (⟨0, []⟩, [])).2)) ∧
    (runRtActions
      (([⟨[], [10]⟩, ⟨[], [20]⟩] : List (RtComponent Nat)).map RtAction.implement ++
        [RtAction.script 30 {}]) (initialRtState, []) =
      ((runRtActions ([RtAction.script 30 {}] : List (RtAction Nat)) (initialRtState, [])).1,
        (([⟨[], [10]⟩, ⟨[], [20]⟩] : List (RtComponent Nat)).reverse.map
            RtComponent.scriptCallbacks).flatten ++
          (runRtActions ([RtAction.script 30 {}] : List (RtAction Nat)) (initialRtState, [])).2)) := by
  constructor
  · exact implement_composition_order.1
      [⟨[⟨"BP/entities/a.json", "ca"⟩], []⟩, ⟨[⟨"BP/entities/b.json", "cb"⟩], []⟩]
      [BuildAction.defineKind FileKind.block "x" {}] (by decide) ⟨0, []⟩
  · exact implement_composition_order.2 Nat
      [⟨[], [10]⟩, ⟨[], [20]⟩] [RtAction.script 30 {}] (by decide) initialRtState

/-!
Claim C2.
-/

/-- C2, counterexample: in the build-time sandbox a handle call made after
the factory has returned does not fail — it succeeds, returns a name and
appends to the very file-definition array captured by the returned
component, so the component is mutated after the factory returned. -/
theorem handle_inert_counterexample :
    postReturnDefineKind FileKind.entity "x" {} ⟨0, []⟩ ⟨[], []⟩ =
      .ok (some "0", ⟨1, []⟩, ⟨[⟨"BP/entities/0.json", "x"⟩], []⟩) ∧
    (⟨[⟨"BP/entities/0.json", "x"⟩], []⟩ : Component) ≠ ⟨[], []⟩ := by
  exact ⟨rfl, by decide⟩

/-- C2 (amended): only the emitted run-time bootstrap marks the handle
inert: once `functionsAvailable` is false, every registration function of
the handle (each kind-specific function bound to `emptyDefine`, `script`
and `implement`) fails with an explicit error naming the function group.
The build-time sandbox installs no such guard: a post-return handle call
always succeeds (never reaches an error) and appends to the returned
file-artifact sequence of the returned component. -/
theorem handle_inert_after_return :
    (∀ (o : DefineFileOptions) (st : RtState),
      rtEmptyDefine false o st =
        .error "Cannot use define as it is no longer available") ∧
    (∀ (CB : Type) (cb : CB) (o : DefineScriptOptions) (st : RtState) (cbs : List CB),
      rtScript false cb o st cbs =
        .error "Cannot use define as it is no longer available") ∧
    (∀ (CB : Type) (c : RtComponent CB) (cbs : List CB),
      rtImplement false c cbs =
        .error "Cannot use implement as it is no longer available") ∧
    (∀ (k : FileKind) (content : String) (o : DefineFileOptions)
      (st : BuildState) (c : Component),
      ∃ r, postReturnDefineKind k content o st c = .ok r) := by
  refine ⟨fun o st => rfl, fun CB cb o st cbs => rfl, fun CB c cbs => rfl, ?_⟩
  intro k content o st c
  exact ⟨_, rfl⟩

/-!
Claim C3.
-/

/-- C3, counterexample: the build-time JSON-kind registration functions
drop the `once` option at their call site (the source forwards only name,
rootDir and ext to `defineFile`), so two `entity` registrations sharing
once-key `k` both succeed: the second call returns the name `1` and
appends a second entry instead of returning false, and the key set stays
empty throughout, refuting the claim for build-time JSON-kind
registration functions.  The build-time `script` function likewise
ignores its once option, being the bare no-op `() => \x7b\x7d`. -/
theorem once_key_gate_counterexample :
    regTrace
      [BuildAction.defineKind FileKind.entity "c1" ⟨none, none, none, some ⟨"k"⟩⟩,
        BuildAction.defineKind FileKind.entity "c2" ⟨none, none, none, some ⟨"k"⟩⟩]
      ⟨0, []⟩ = [⟨none, some "0"⟩, ⟨none, some "1"⟩] ∧
    runActions
      [BuildAction.defineKind FileKind.entity "c1" ⟨none, none, none, some ⟨"k"⟩⟩,
        BuildAction.defineKind FileKind.entity "c2" ⟨none, none, none, some ⟨"k"⟩⟩]
      (⟨0, []⟩, []) =
      (⟨2, []⟩, [⟨"BP/entities/0.json", "c1"⟩, ⟨"BP/entities/1.json", "c2"⟩]) := by
  exact ⟨rfl, rfl⟩

/-- C3 (amended): the once-key gate holds for the build-time `rawText`
registration (bound directly to `defineFile`) and for every run-time
registration function, `script` included: a call whose key is already
registered returns false (respectively is a no-op) and changes nothing,
the first call with a fresh key succeeds and consumes exactly that key,
and a call never changes membership of any key other than its own (calls
with distinct keys or no key never interact).  Build-time JSON-kind
registration functions, however, drop the `once` option before reaching
`defineFile` and therefore always succeed without consulting or extending
the registry, and the build-time `script` function is a total no-op that
ignores its arguments. -/
theorem once_key_gate :
    (∀ (content : String) (o : DefineFileRawOptions) (st : BuildState)
        (fds : List FileDefinition) (k : String),
      onceKeyOf o.once = some k → k ∈ st.fileOnceKeys →
      defineFile content o st fds = (none, fds, st)) ∧
    (∀ (content : String) (o : DefineFileRawOptions) (st : BuildState)
        (fds : List FileDefinition) (k : String),
      onceKeyOf o.once = some k → k ∉ st.fileOnceKeys →
      defineFile content o st fds =
        (some (o.name.getD (Nat.repr st.allFilesCount)),
          fds ++ [⟨pathJoin o.rootDir
            (o.name.getD (Nat.repr st.allFilesCount) ++ "." ++ o.ext), content⟩],
          ⟨st.allFilesCount + 1, k :: st.fileOnceKeys⟩)) ∧
    (∀ (content : String) (o : DefineFileRawOptions) (st : BuildState)
        (fds : List FileDefinition) (k' : String),
      k' ∈ (defineFile content o st fds).2.2.fileOnceKeys ↔
        k' ∈ st.fileOnceKeys ∨ onceKeyOf o.once = some k') ∧
    (∀ (d content : String) (o : DefineFileOptions) (st : BuildState)
        (fds : List FileDefinition),
      defineJsonFile d content o st fds =
        (some (o.name.getD (Nat.repr st.allFilesCount)),
          fds ++ [⟨pathJoin (o.rootDir.getD d)
            (o.name.getD (Nat.repr st.allFilesCount) ++ "." ++ (o.ext.getD "json")),
            content⟩],
          ⟨st.allFilesCount + 1, st.fileOnceKeys⟩)) ∧
    (∀ (id : Nat) (o : DefineScriptOptions) (s : BuildState × List FileDefinition),
      runAction (BuildAction.script id o) s = s) ∧
    (∀ (CB : Type) (cb : CB) (o : DefineScriptOptions) (st : RtState)
        (cbs : List CB) (k : String),
      onceKeyOf o.once = some k → k ∈ st.fileOnceKeys →
      rtScriptCore cb o st cbs = (st, cbs)) ∧
    (∀ (CB : Type) (cb : CB) (o : DefineScriptOptions) (st : RtState)
        (cbs : List CB) (k : String),
      onceKeyOf o.once = some k → k ∉ st.fileOnceKeys →
      rtScriptCore cb o st cbs =
        (⟨st.createAddonCalled, st.allFilesCount, k :: st.fileOnceKeys⟩,
          cbs ++ [cb])) ∧
    (∀ (o : DefineFileOptions) (st : RtState) (k : String),
      onceKeyOf o.once = some k → k ∈ st.fileOnceKeys →
      rtEmptyDefineCore o st = (none, st)) ∧
    (∀ (o : DefineFileOptions) (st : RtState) (k : String),
      onceKeyOf o.once = some k → k ∉ st.fileOnceKeys →
      rtEmptyDefineCore o st =
        (some (o.name.getD (Nat.repr st.allFilesCount)),
          ⟨st.createAddonCalled, st.allFilesCount + 1, k :: st.fileOnceKeys⟩)) := by
  refine ⟨defineFile_skip, defineFile_fresh, ?_, defineJsonFile_nokey,
    fun id o s => rfl, ?_, ?_, ?_, ?_⟩
  · intro content o st fds k'
    match h : onceKeyOf o.once with
    | none =>
      rw [defineFile_nokey content o st fds h]
      simp
    | some k =>
      by_cases hk : k ∈ st.fileOnceKeys
      · rw [defineFile_skip content o st fds k h hk]
        constructor
        · exact fun hm => Or.inl hm
        · rintro (hm | he)
          · exact hm
          · cases Option.some.inj he; exact hk
      · rw [defineFile_fresh content o st fds k h hk]
        simp only [List.mem_cons]
        constructor
        · rintro (he | hm)
          · exact Or.inr (by rw [he])
          · exact Or.inl hm
        · rintro (hm | he)
          · exact Or.inr hm
          · exact Or.inl (Option.some.inj he).symm
  · intro CB cb o st cbs k h hk
    unfold rtScriptCore
    rw [h]
    simp [hk]
  · intro CB cb o st cbs k h hk
    unfold rtScriptCore
    rw [h]
    simp [hk]
  · intro o st k h hk
    unfold rtEmptyDefineCore
    rw [h]
    simp [hk]
  · intro o st k h hk
    unfold rtEmptyDefineCore
    rw [h]
    simp [hk]

/-- C3 witness: the gate evaluated at concrete calls with key `k`,
covering the seen-key and fresh-key branches of the gated functions and a
build-time JSON-kind call that succeeds although its key is already in
the registry. -/
theorem once_key_gate_witness :
    defineFile "c" ⟨none, "BP/entities", "json", some ⟨"k"⟩⟩ ⟨5, ["k"]⟩ [] =
      (none, [], ⟨5, ["k"]⟩) ∧
    defineFile "c" ⟨none, "BP/entities", "json", some ⟨"k"⟩⟩ ⟨0, []⟩ [] =
      (some "0", [⟨"BP/entities/0.json", "c"⟩], ⟨1, ["k"]⟩) ∧
    defineJsonFile "BP/entities" "c" ⟨none, none, none, some ⟨"k"⟩⟩ ⟨0, ["k"]⟩ [] =
      (some "0", [⟨"BP/entities/0.json", "c"⟩], ⟨1, ["k"]⟩) ∧
    rtScriptCore 7 ⟨some ⟨"k"⟩⟩ ⟨false, 0, ["k"]⟩ ([] : List Nat) =
      (⟨false, 0, ["k"]⟩, []) ∧
    rtEmptyDefineCore ⟨none, none, none, some ⟨"k"⟩⟩ ⟨false, 0, []⟩ =
      (some "0", ⟨false, 1, ["k"]⟩) := by
  refine ⟨once_key_gate.1 "c" _ _ [] "k" (by decide) (by decide),
    once_key_gate.2.1 "c" _ _ [] "k" (by decide) (by decide),
    once_key_gate.2.2.2.1 "BP/entities" "c" _ ⟨0, ["k"]⟩ [],
    once_key_gate.2.2.2.2.2.1 Nat 7 _ _ [] "k" (by decide) (by decide),
    once_key_gate.2.2.2.2.2.2.2.2 _ _ "k" (by decide) (by decide)⟩

/-!
Claim C4.
-/

/-- C4: in the run-time bootstrap, if `createAddon` has not yet been
called, the call succeeds, performing exactly one invocation per collected
callback, in composition order, each passed the single `MODULES` value,
and any later `createAddon` call on the resulting state fails with the
explicit error. -/
theorem createAddon_runtime_once (CB M : Type) (m : M) (st : RtState)
    (c : RtComponent CB) (h : st.createAddonCalled = false) :
    createAddonRt m st c =
      .ok (c.scriptCallbacks.map (fun cb => (cb, m)),
        ⟨true, st.allFilesCount, st.fileOnceKeys⟩) ∧
    (∀ p ∈ c.scriptCallbacks.map (fun cb => (cb, m)), p.2 = m) ∧
    (∀ c' : RtComponent CB,
      createAddonRt m (⟨true, st.allFilesCount, st.fileOnceKeys⟩ : RtState) c' =
        .error "createAddon has already been called") := by
  refine ⟨by simp [createAddonRt, h], ?_, fun c' => rfl⟩
  intro p hp
  rcases List.mem_map.mp hp with ⟨cb, _, he⟩
  rw [← he]

/-- C4 witness: a session with two collected callbacks invokes both, in
order, each with the same modules value, and a second `createAddon` call
fails. -/
theorem createAddon_runtime_once_witness :
    createAddonRt 99 initialRtState (⟨[], [1, 2]⟩ : RtComponent Nat) =
      .ok ([(1, 99), (2, 99)], ⟨true, 0, []⟩) ∧
    (∀ p ∈ ([(1, 99), (2, 99)] : List (Nat × Nat)), p.2 = 99) ∧
    (∀ c' : RtComponent Nat,
      createAddonRt 99 (⟨true, 0, []⟩ : RtState) c' =
        .error "createAddon has already been called") := by
  exact createAddon_runtime_once Nat Nat 99 initialRtState ⟨[], [1, 2]⟩ rfl

/-!
Claim C5.
-/

/-- C5, counterexample: in the emitted run-time bootstrap a file-artifact
registration with no options is not a no-op returning false: it returns
the resolved auto name `0` and increments the shared counter. -/
theorem runtime_define_counterexample :
    rtEmptyDefineCore {} initialRtState = (some "0", ⟨false, 1, []⟩) ∧
    (some "0" : Option String) ≠ none ∧
    (⟨false, 1, []⟩ : RtState) ≠ initialRtState := by
  exact ⟨rfl, by decide, by decide⟩

/-- C5 (amended): run-time file-artifact registration functions create no
artifact — every component the emitted factory returns carries the empty
file-definition list — but they are not no-ops returning false: a call
whose once-key was already seen returns false with no effect, and any
other call consumes its fresh key (if any), increments the shared counter
and returns the resolved file name. -/
theorem runtime_fileDefine_behavior :
    (∀ (CB : Type) (body : List (RtAction CB)) (st : RtState),
      (mkRtFactory body st).2.fileDefinitions = []) ∧
    (∀ (o : DefineFileOptions) (st : RtState) (k : String),
      onceKeyOf o.once = some k → k ∈ st.fileOnceKeys →
      rtEmptyDefineCore o st = (none, st)) ∧
    (∀ (o : DefineFileOptions) (st : RtState) (k : String),
      onceKeyOf o.once = some k → k ∉ st.fileOnceKeys →
      rtEmptyDefineCore o st =
        (some (o.name.getD (Nat.repr st.allFilesCount)),
          ⟨st.createAddonCalled, st.allFilesCount + 1, k :: st.fileOnceKeys⟩)) ∧
    (∀ (o : DefineFileOptions) (st : RtState),
      onceKeyOf o.once = none →
      rtEmptyDefineCore o st =
        (some (o.name.getD (Nat.repr st.allFilesCount)),
          ⟨st.createAddonCalled, st.allFilesCount + 1, st.fileOnceKeys⟩)) := by
  exact ⟨fun CB body st => rfl, rtEmptyDefineCore_skip,
    rtEmptyDefineCore_fresh, rtEmptyDefineCore_nokey⟩

/-- C5 witness: the amended behavior evaluated at concrete run-time calls:
a factory body with one file registration yields an empty file list, a
seen key yields false, a fresh key and a keyless call yield names `5` and
`3` at counters 5 and 3. -/
theorem runtime_fileDefine_behavior_witness :
    (mkRtFactory ([RtAction.defineKind FileKind.entity "x" {}] : List (RtAction Nat))
      initialRtState).2.fileDefinitions = [] ∧
    rtEmptyDefineCore ⟨none, none, none, some ⟨"q"⟩⟩ ⟨false, 2, ["q"]⟩ =
      (none, ⟨false, 2, ["q"]⟩) ∧
    rtEmptyDefineCore ⟨none, none, none, some ⟨"r"⟩⟩ ⟨false, 5, ["q"]⟩ =
      (some "5", ⟨false, 6, ["r", "q"]⟩) ∧
    rtEmptyDefineCore {} ⟨true, 3, []⟩ = (some "3", ⟨true, 4, []⟩) := by
  exact ⟨runtime_fileDefine_behavior.1 Nat [RtAction.defineKind FileKind.entity "x" {}]
      initialRtState,
    runtime_fileDefine_behavior.2.1 _ _ "q" (by decide) (by decide),
    runtime_fileDefine_behavior.2.2.1 _ _ "r" (by decide) (by decide),
    runtime_fileDefine_behavior.2.2.2 _ _ (by decide)⟩

/-!
Claim C6.
-/

/-- C6, counterexample: a factory obtained from `defineComponent` before
finalize remains invocable after `createAddon` has established the root
component: the invocation returns a component (`.ok`), it does not fail
with an explicit error as the claim requires. -/
theorem factory_after_finalize_counterexample :
    invokeFactory [BuildAction.defineKind FileKind.entity "x" {}]
      ⟨some ⟨[], []⟩, ⟨0, []⟩⟩ =
      .ok (⟨some ⟨[], []⟩, ⟨1, []⟩⟩, ⟨[⟨"BP/entities/0.json", "x"⟩], []⟩) ∧
    (∀ e : String,
      invokeFactory [BuildAction.defineKind FileKind.entity "x" {}]
        ⟨some ⟨[], []⟩, ⟨0, []⟩⟩ ≠ .error e) := by
  refine ⟨rfl, fun e h => ?_⟩
  rw [show invokeFactory [BuildAction.defineKind FileKind.entity "x" {}]
      ⟨some ⟨[], []⟩, ⟨0, []⟩⟩ =
      .ok (⟨some ⟨[], []⟩, ⟨1, []⟩⟩, ⟨[⟨"BP/entities/0.json", "x"⟩], []⟩) from rfl] at h
  exact Except.noConfusion h

/-- C6 (amended): within one build-time sandbox session a second
`createAddon` call fails with an explicit error, and calling
`defineComponent` itself after `createAddon` fails with an explicit error;
invoking a factory that `defineComponent` returned earlier is guarded by
neither check and always succeeds. -/
theorem finalize_guards :
    (∀ (g : BuildGlobal) (c : Component), g.mainComponent = none →
      createAddon g c = .ok ⟨some c, g.st⟩) ∧
    (∀ (g : BuildGlobal) (c c' : Component), g.mainComponent = some c →
      createAddon g c' = .error "createAddon has already been called") ∧
    (∀ (g : BuildGlobal) (body : List BuildAction) (c : Component),
      g.mainComponent = some c →
      defineComponent g body =
        .error "Cannot define a component after createAddon has been called") ∧
    (∀ (body : List BuildAction) (g : BuildGlobal),
      ∃ r, invokeFactory body g = .ok r) := by
  refine ⟨?_, ?_, ?_, fun body g => ⟨_, rfl⟩⟩
  · intro g c h
    simp [createAddon, h]
  · intro g c c' h
    simp [createAddon, h]
  · intro g body c h
    simp [defineComponent, h]

/-- C6 witness: a fresh session establishes a root once, the second
`createAddon` and a later `defineComponent` fail, and a previously
obtained factory still runs. -/
theorem finalize_guards_witness :
    createAddon initialBuildGlobal ⟨[], []⟩ = .ok ⟨some ⟨[], []⟩, ⟨0, []⟩⟩ ∧
    createAddon ⟨some ⟨[], []⟩, ⟨0, []⟩⟩ ⟨[], []⟩ =
      .error "createAddon has already been called" ∧
    defineComponent ⟨some ⟨[], []⟩, ⟨0, []⟩⟩ [] =
      .error "Cannot define a component after createAddon has been called" ∧
    ∃ r, invokeFactory [] ⟨some ⟨[], []⟩, ⟨0, []⟩⟩ = .ok r := by
  exact ⟨finalize_guards.1 initialBuildGlobal ⟨[], []⟩ rfl,
    finalize_guards.2.1 ⟨some ⟨[], []⟩, ⟨0, []⟩⟩ ⟨[], []⟩ ⟨[], []⟩ rfl,
    finalize_guards.2.2.1 ⟨some ⟨[], []⟩, ⟨0, []⟩⟩ [] ⟨[], []⟩ rfl,
    finalize_guards.2.2.2 [] ⟨some ⟨[], []⟩, ⟨0, []⟩⟩⟩

/-!
Claim C7.
-/

/-- C7: after sandbox evaluation, `executeAndGetFileDefs` fails with its
explicit missing-addon error (message `createAddon must be called`)
exactly when no root component was established, and otherwise returns
precisely the file-artifact sequence of the established component, dropping the
script callbacks.  The establishment flag starts unset, is turned on only
by a successful `createAddon`, and factory invocations never change it. -/
theorem collect_artifacts_result (g : BuildGlobal) :
    (finishBuild g = .error "createAddon must be called" ↔
      g.mainComponent = none) ∧
    (∀ c : Component, g.mainComponent = some c →
      finishBuild g = .ok c.fileDefinitions) ∧
    (∀ (body : List BuildAction) (r : BuildGlobal × Component),
      invokeFactory body g = .ok r → r.1.mainComponent = g.mainComponent) ∧
    (∀ (c : Component) (g' : BuildGlobal), createAddon g c = .ok g' →
      g'.mainComponent = some c) ∧
    initialBuildGlobal.mainComponent = none := by
  obtain ⟨mc, st⟩ := g
  refine ⟨?_, ?_, ?_, ?_, rfl⟩
  · cases mc <;> simp [finishBuild]
  · intro c h
    cases h
    rfl
  · intro body r h
    rw [← Except.ok.inj h]
  · intro c g' h
    cases mc with
    | some c0 =>
      rw [show createAddon ⟨some c0, st⟩ c = .error "createAddon has already been called"
        from rfl] at h
      exact Except.noConfusion h
    | none =>
      rw [← Except.ok.inj h]

/-- C7 witness: concrete sessions — an established root yields its file
list, an unestablished session yields the explicit error, a factory
invocation preserves the established root, and `createAddon` records its
argument. -/
theorem collect_artifacts_result_witness :
    finishBuild ⟨some ⟨[⟨"BP/blocks/0.json", "b"⟩], []⟩, ⟨1, []⟩⟩ =
      .ok [⟨"BP/blocks/0.json", "b"⟩] ∧
    finishBuild initialBuildGlobal = .error "createAddon must be called" ∧
    (⟨some ⟨[⟨"BP/blocks/0.json", "b"⟩], []⟩, ⟨2, []⟩⟩ : BuildGlobal).mainComponent =
      (⟨some ⟨[⟨"BP/blocks/0.json", "b"⟩], []⟩, ⟨1, []⟩⟩ : BuildGlobal).mainComponent ∧
    (⟨some ⟨[], []⟩, ⟨0, []⟩⟩ : BuildGlobal).mainComponent = some ⟨[], []⟩ := by
  refine ⟨(collect_artifacts_result ⟨some ⟨[⟨"BP/blocks/0.json", "b"⟩], []⟩, ⟨1, []⟩⟩).2.1
      ⟨[⟨"BP/blocks/0.json", "b"⟩], []⟩ rfl,
    (collect_artifacts_result initialBuildGlobal).1.mpr rfl,
    (collect_artifacts_result ⟨some ⟨[⟨"BP/blocks/0.json", "b"⟩], []⟩, ⟨1, []⟩⟩).2.2.1
      [BuildAction.defineKind FileKind.block "x" {}]
      (⟨some ⟨[⟨"BP/blocks/0.json", "b"⟩], []⟩, ⟨2, []⟩⟩,
        ⟨[⟨"BP/blocks/1.json", "x"⟩], []⟩) rfl,
    (collect_artifacts_result initialBuildGlobal).2.2.2.1 ⟨[], []⟩
      ⟨some ⟨[], []⟩, ⟨0, []⟩⟩ rfl⟩

/-!
Claim C8.
-/

/-- Event with a false result contributes no auto name. -/
theorem autoNames_cons_none (name0 : Option String) (tr : List RegEvent) :
    autoNames (⟨name0, none⟩ :: tr) = autoNames tr := by
  cases name0 <;> simp [autoNames, List.filterMap_cons]

/-- Event with an explicit name contributes no auto name. -/
theorem autoNames_cons_someName (s : String) (res : Option String)
    (tr : List RegEvent) :
    autoNames (⟨some s, res⟩ :: tr) = autoNames tr := by
  simp [autoNames, List.filterMap_cons]

/-- Successful event without explicit name contributes its result. -/
theorem autoNames_cons_auto (res : String) (tr : List RegEvent) :
    autoNames (⟨none, some res⟩ :: tr) = res :: autoNames tr := by
  simp [autoNames, List.filterMap_cons]

/-- Step lemma: prepending one registration event preserves the shape of
the auto-name list, provided the event either failed or was assigned the
current counter value and the counter moved up by one. -/
theorem autoNames_exists_cons (name0 result : Option String)
    (st st' : BuildState) (tr : List RegEvent)
    (hres : result = none ∨
      (result = some (name0.getD (Nat.repr st.allFilesCount)) ∧
        st'.allFilesCount = st.allFilesCount + 1))
    (hbound : st.allFilesCount ≤ st'.allFilesCount)
    (ihex : ∃ ns : List Nat, autoNames tr = ns.map Nat.repr ∧
      List.Chain' (· < ·) ns ∧ ∀ n ∈ ns, st'.allFilesCount ≤ n) :
    ∃ ns : List Nat, autoNames (⟨name0, result⟩ :: tr) = ns.map Nat.repr ∧
      List.Chain' (· < ·) ns ∧ ∀ n ∈ ns, st.allFilesCount ≤ n := by
  obtain ⟨ns, hmap, hchain, hb⟩ := ihex
  rcases hres with hnone | ⟨hsome, hcount⟩
  · rw [hnone, autoNames_cons_none]
    exact ⟨ns, hmap, hchain, fun n hn => le_trans hbound (hb n hn)⟩
  · cases hname : name0 with
    | some s =>
      rw [hname] at hsome
      rw [hsome, autoNames_cons_someName]
      refine ⟨ns, hmap, hchain, fun n hn => ?_⟩
      have := hb n hn
      omega
    | none =>
      rw [hname] at hsome
      rw [hsome, autoNames_cons_auto]
      refine ⟨st.allFilesCount :: ns, by rw [List.map_cons, hmap]; rfl, ?_, ?_⟩
      · rw [List.chain'_cons']
        refine ⟨fun y hy => ?_, hchain⟩
        have := hb y (List.mem_of_mem_head? hy)
        omega
      · intro n hn
        rcases List.mem_cons.mp hn with hn | hn
        · omega
        · have := hb n hn
          omega

/-- Auto names of a whole trace are the decimal forms of a strictly
increasing sequence of counter values bounded below by the counter at
entry. -/
theorem autoNames_regTrace (acts : List BuildAction) :
    ∀ st : BuildState, ∃ ns : List Nat,
      autoNames (regTrace acts st) = ns.map Nat.repr ∧
      List.Chain' (· < ·) ns ∧ ∀ n ∈ ns, st.allFilesCount ≤ n := by
  induction acts with
  | nil => exact fun st => ⟨[], rfl, List.chain'_nil, by simp⟩
  | cons a rest ih =>
    intro st
    match a with
    | .script id o =>
      rw [show regTrace (BuildAction.script id o :: rest) st = regTrace rest st from rfl]
      exact ih st
    | .implement c =>
      rw [show regTrace (BuildAction.implement c :: rest) st = regTrace rest st from rfl]
      exact ih st
    | .defineKind kind content o =>
      rw [show regTrace (BuildAction.defineKind kind content o :: rest) st =
        ⟨o.name, (defineJsonFile kind.defaultRootDir content o st []).1⟩ ::
          regTrace rest (defineJsonFile kind.defaultRootDir content o st []).2.2 from rfl,
        defineJsonFile_nokey kind.defaultRootDir content o st []]
      exact autoNames_exists_cons o.name _ st ⟨st.allFilesCount + 1, st.fileOnceKeys⟩
        _ (Or.inr ⟨rfl, rfl⟩) (Nat.le_succ _)
        (ih ⟨st.allFilesCount + 1, st.fileOnceKeys⟩)
    | .rawText content o =>
      rw [show regTrace (BuildAction.rawText content o :: rest) st =
        ⟨o.name, (defineFile content o st []).1⟩ ::
          regTrace rest (defineFile content o st []).2.2 from rfl]
      match ho : onceKeyOf o.once with
      | some k =>
        by_cases hk : k ∈ st.fileOnceKeys
        · rw [defineFile_skip content o st [] k ho hk]
          exact autoNames_exists_cons o.name none st st _ (Or.inl rfl) (le_refl _) (ih st)
        · rw [defineFile_fresh content o st [] k ho hk]
          exact autoNames_exists_cons o.name _ st ⟨st.allFilesCount + 1, k :: st.fileOnceKeys⟩
            _ (Or.inr ⟨rfl, rfl⟩) (Nat.le_succ _)
            (ih ⟨st.allFilesCount + 1, k :: st.fileOnceKeys⟩)
      | none =>
        rw [defineFile_nokey content o st [] ho]
        exact autoNames_exists_cons o.name _ st ⟨st.allFilesCount + 1, st.fileOnceKeys⟩
          _ (Or.inr ⟨rfl, rfl⟩) (Nat.le_succ _)
          (ih ⟨st.allFilesCount + 1, st.fileOnceKeys⟩)

/-- C8: over any callback bodies mixing all artifact kinds, the
auto-generated file names handed out during one registry lifetime are the
decimal forms of a pairwise distinct, strictly increasing sequence of
values of the one shared counter, each at least the counter value at
entry; the lifetime initializes that shared counter to 0
(`initialBuildGlobal`), so from the start of a lifetime the names begin at
the initial counter value 0. -/
theorem auto_names_monotonic (acts : List BuildAction) (st : BuildState) :
    ∃ ns : List Nat,
      autoNames (regTrace acts st) = ns.map Nat.repr ∧
      List.Chain' (· < ·) ns ∧
      ns.Pairwise (· ≠ ·) ∧
      (∀ n ∈ ns, st.allFilesCount ≤ n) ∧
      initialBuildGlobal.st.allFilesCount = 0 := by
  obtain ⟨ns, h1, h2, h3⟩ := autoNames_regTrace acts st
  exact ⟨ns, h1, h2,
    (List.chain'_iff_pairwise.mp h2).imp (fun h => Nat.ne_of_lt h), h3, rfl⟩

/-!
Claim C9.
-/

/-- Right-fold concatenation of a list of strings. -/
def strConcat (l : List String) : String := l.foldr (fun a b => a ++ b) ""

/-- Accumulating banner loop as accumulator plus per-entry fragments. -/
theorem bannerFold_eq (l : List (Nat × ManifestDependency)) :
    ∀ acc : String × String, bannerFold l acc =
      (acc.1 ++ strConcat (l.map importFragment),
        acc.2 ++ strConcat (l.map aliasFragment)) := by
  induction l with
  | nil =>
    intro acc
    show acc = (acc.1 ++ "", acc.2 ++ "")
    rw [String.append_empty, String.append_empty]
  | cons e rest ih =>
    intro acc
    rcases e with ⟨i, d⟩
    cases d with
    | uuidDep u v =>
      have hstep : bannerFold ((i, ManifestDependency.uuidDep u v) :: rest) acc =
          bannerFold rest acc := rfl
      rw [hstep, ih, List.map_cons, List.map_cons,
        show strConcat (importFragment (i, ManifestDependency.uuidDep u v) ::
          rest.map importFragment) = "" ++ strConcat (rest.map importFragment) from rfl,
        show strConcat (aliasFragment (i, ManifestDependency.uuidDep u v) ::
          rest.map aliasFragment) = "" ++ strConcat (rest.map aliasFragment) from rfl,
        String.empty_append, String.empty_append]
    | moduleDep mn ver al =>
      have hstep : bannerFold ((i, ManifestDependency.moduleDep mn ver al) :: rest) acc =
          bannerFold rest
            (acc.1 ++ importFragment (i, ManifestDependency.moduleDep mn ver al),
              acc.2 ++ aliasFragment (i, ManifestDependency.moduleDep mn ver al)) := rfl
      rw [hstep, ih, List.map_cons, List.map_cons,
        show strConcat (importFragment (i, ManifestDependency.moduleDep mn ver al) ::
            rest.map importFragment) =
          importFragment (i, ManifestDependency.moduleDep mn ver al) ++
            strConcat (rest.map importFragment) from rfl,
        show strConcat (aliasFragment (i, ManifestDependency.moduleDep mn ver al) ::
            rest.map aliasFragment) =
          aliasFragment (i, ManifestDependency.moduleDep mn ver al) ++
            strConcat (rest.map aliasFragment) from rfl,
        String.append_assoc, String.append_assoc]

/-- C9, counterexample: a dependency that declares the empty string as its
alias is keyed by the raw module name, not by its declared alias — the
source tests the alias with a JavaScript truthiness check (`||`), not an
is-declared check: at `\x7bmodule_name: "m", "hopper:alias": ""\x7d` the
generated alias entry is `"m"`, while the claim calls for the declared
alias `""`. -/
theorem alias_key_counterexample :
    resolveAlias (some "") "m" = "m" ∧
    claimedAliasKey (some "") "m" = "" ∧
    resolveAlias (some "") "m" ≠ claimedAliasKey (some "") "m" ∧
    (bannerParts [ManifestDependency.moduleDep "m" "1.0.0" (some "")]).2 =
      "\"m\":__scriptModule0__," := by
  exact ⟨rfl, rfl, by decide, rfl⟩

/-- C9 (amended): each dependency entry that names a module contributes
exactly one import under its synthetic local name and one alias-object
entry keyed by `resolveAlias` (its declared alias, falling back to the raw
module name when the alias is undeclared or a falsy empty string), while
UUID-only entries contribute nothing; for the dependency
`\x7bmodule_name: "engine.core", alias: "core"\x7d` the banner imports
`engine.core` and exposes it under the key `"core"`. -/
theorem banner_entries (deps : List ManifestDependency) :
    bannerParts deps =
      (strConcat (deps.enum.map importFragment),
        strConcat (deps.enum.map aliasFragment)) ∧
    (∀ (i : Nat) (u v : String),
      importFragment (i, ManifestDependency.uuidDep u v) = "" ∧
      aliasFragment (i, ManifestDependency.uuidDep u v) = "") ∧
    (∀ (i : Nat) (mn ver : String) (al : Option String),
      importFragment (i, ManifestDependency.moduleDep mn ver al) =
        "import*as " ++ importNameFor i ++ " from\"" ++ mn ++ "\";" ∧
      aliasFragment (i, ManifestDependency.moduleDep mn ver al) =
        "\"" ++ resolveAlias al mn ++ "\":" ++ importNameFor i ++ ",") ∧
    mkBanner [ManifestDependency.moduleDep "engine.core" "1.0.0" (some "core")] "RT" =
      "import*as __scriptModule0__ from\"engine.core\";(()=>\x7bconst MODULES=\x7b"
        ++ "\"core\":__scriptModule0__,\x7d;RT\x7d)();" := by
  refine ⟨?_, fun i u v => ⟨rfl, rfl⟩, fun i mn ver al => ⟨rfl, rfl⟩, rfl⟩
  have h := bannerFold_eq deps.enum ("", "")
  rw [show bannerParts deps = bannerFold deps.enum ("", "") from rfl, h]
  rw [String.empty_append, String.empty_append]

/-!
Claim C10.
-/

/-- C10: a build-time file registration rejected by the once-key gate
leaves the counter, the key set and the file sequence of the component all
unchanged and returns false, while every accepted registration — with or
without an explicit name — appends exactly one entry and increments the
shared counter by exactly one. -/
theorem counter_increment_frame (content : String) (o : DefineFileRawOptions)
    (st : BuildState) (fds : List FileDefinition) :
    (∀ k : String, onceKeyOf o.once = some k → k ∈ st.fileOnceKeys →
      defineFile content o st fds = (none, fds, st)) ∧
    ((∀ k : String, onceKeyOf o.once = some k → k ∉ st.fileOnceKeys) →
      (defineFile content o st fds).2.2.allFilesCount = st.allFilesCount + 1 ∧
      (defineFile content o st fds).2.1 =
        fds ++ [⟨pathJoin o.rootDir
          (o.name.getD (Nat.repr st.allFilesCount) ++ "." ++ o.ext), content⟩]) := by
  refine ⟨fun k h hk => defineFile_skip content o st fds k h hk, ?_⟩
  intro h
  match ho : onceKeyOf o.once with
  | some k =>
    rw [defineFile_fresh content o st fds k ho (h k ho)]
    exact ⟨rfl, rfl⟩
  | none =>
    rw [defineFile_nokey content o st fds ho]
    exact ⟨rfl, rfl⟩

/-- C10 witness: with an explicit name the counter still moves from 4 to
5, and a gated registration at the same state changes nothing. -/
theorem counter_increment_frame_witness :
    (defineFile "c" ⟨some "nm", "BP/blocks", "json", none⟩ ⟨4, []⟩ []).2.2.allFilesCount
      = 5 ∧
    (defineFile "c" ⟨some "nm", "BP/blocks", "json", none⟩ ⟨4, []⟩ []).2.1 =
      [⟨"BP/blocks/nm.json", "c"⟩] ∧
    defineFile "c" ⟨none, "BP/blocks", "json", some ⟨"z"⟩⟩ ⟨4, ["z"]⟩ [] =
      (none, [], ⟨4, ["z"]⟩) := by
  have h := (counter_increment_frame "c" ⟨some "nm", "BP/blocks", "json", none⟩
    ⟨4, []⟩ []).2 (fun k hk => by simp [onceKeyOf] at hk)
  exact ⟨h.1, h.2,
    (counter_increment_frame "c" ⟨none, "BP/blocks", "json", some ⟨"z"⟩⟩
      ⟨4, ["z"]⟩ []).1 "z" (by decide) (by decide)⟩

end Hopper
